import Mathlib

/-!
Verification of the rashboard terminal dashboard (src/main.rs) against its
specification.  The Rust source is shallowly embedded: pure formatting
functions become Lean functions over Nat/Int/String, the main render/poll
loop becomes a step function over an explicit per-iteration input, and the
fallible external subprocess calls become Option-valued inputs (none models
a spawn failure).  Machine integers are modelled as Nat (u64) and Int with
explicit two's-complement wrapping for i32 where overflow matters.
-/

namespace Rashboard

/-! Crossterm input events, as consumed by the main loop (crossterm::event).
The quit check in main.rs line 42 compares only the code field of a key
event, so modifiers are carried but never inspected. -/

inductive KeyCode where
  | char (c : Char)
  | enter
  | esc
  | backspace
  | up
  | down
  deriving DecidableEq

structure KeyEvent where
  code : KeyCode
  modifiers : Nat
  deriving DecidableEq

inductive Event where
  | key (k : KeyEvent)
  | mouse
  | resize (w h : Nat)
  | focusGained
  | focusLost
  deriving DecidableEq

/-! One iteration of the main loop (main.rs lines 33-52) consumes: whether
terminal.draw succeeded (line 34), the result of event::poll (line 40:
an error, or whether an event is ready within the timeout), and the result
of event::read (line 41, consulted only when poll returned true). -/

structure IterInput where
  drawOk : Bool
  poll : Except Unit Bool
  read : Except Unit Event

inductive IterOutcome where
  | continues
  | breaks
  | fails
  deriving DecidableEq

/-- One pass through the loop body of main (main.rs lines 33-52): draw the
frame (a failure propagates via the question-mark operator), poll for input
(failure propagates), and if an event is ready, read it (failure
propagates); a key event whose code is the character q breaks the loop,
every other event and a poll timeout continue it. -/
def iterStep (i : IterInput) : IterOutcome :=
  if i.drawOk = false then IterOutcome.fails
  else
    match i.poll with
    | Except.error _ => IterOutcome.fails
    | Except.ok false => IterOutcome.continues
    | Except.ok true =>
      match i.read with
      | Except.error _ => IterOutcome.fails
      | Except.ok (Event.key k) =>
        if k.code = KeyCode.char 'q' then IterOutcome.breaks
        else IterOutcome.continues
      | Except.ok _ => IterOutcome.continues

/-- Outcome of running main from the top of the loop: exit with Ok or with
an error, recording how many times the terminal-restoration sequence
(disable_raw_mode, LeaveAlternateScreen, DisableMouseCapture, show_cursor;
main.rs lines 55-61) executed before the function returned, or still
running when the supplied iteration inputs are exhausted. -/
inductive MainOutcome where
  | exitOk (restoreRuns : Nat)
  | exitErr (restoreRuns : Nat)
  | stillRunning
  deriving DecidableEq

/-- The main loop of main.rs (lines 33-52) followed by the restoration
block (lines 55-61).  A failing iteration returns the error via the
question-mark operator immediately, so control never reaches the
restoration block (restoreRuns = 0); only the break on q falls through to
it (restoreRuns = 1).  The restoration steps themselves are modelled as
succeeding. -/
def mainLoop : List IterInput → MainOutcome
  | [] => MainOutcome.stillRunning
  | i :: rest =>
    match iterStep i with
    | IterOutcome.fails => MainOutcome.exitErr 0
    | IterOutcome.breaks => MainOutcome.exitOk 1
    | IterOutcome.continues => mainLoop rest

/-! The tick schedule (main.rs lines 28, 36-38). -/

def tick_rate : Nat := 1000

/-- Duration.checked_sub: none on underflow. -/
def checked_sub (a b : Nat) : Option Nat :=
  if b ≤ a then some (a - b) else none

/-- The input-wait budget of one iteration (main.rs lines 36-38):
tick_rate.checked_sub(last_tick.elapsed()).unwrap_or(zero). -/
def loop_timeout (elapsed : Nat) : Nat :=
  (checked_sub tick_rate elapsed).getD 0

/-! Panel renderers.  Each is the pure body-text computation of the
corresponding draw function in main.rs. -/

/-- draw_memory_disk (main.rs lines 98-113): both readings are divided by
1024 with u64 (floor) division and formatted used first, total second. -/
def draw_memory_disk (total_memory_raw used_memory_raw : Nat) : String :=
  let total_memory := total_memory_raw / 1024
  let used_memory := used_memory_raw / 1024
  let memory_usage :=
    "Memory Usage: " ++ toString used_memory ++ "/" ++ toString total_memory ++ " MB"
  memory_usage

/-- draw_uptime (main.rs lines 115-136): decomposition of the uptime in
seconds (u64) by floor division and modulo with 86400, 3600 and 60. -/
def draw_uptime (uptime_seconds : Nat) : String :=
  "Uptime: " ++ toString (uptime_seconds / 86400) ++ "d "
    ++ toString ((uptime_seconds % 86400) / 3600) ++ "h "
    ++ toString ((uptime_seconds % 3600) / 60) ++ "m "
    ++ toString (uptime_seconds % 60) ++ "s"

/-! UTF-8, as used by String::from_utf8_lossy on the captured stdout of
both subprocesses (main.rs lines 145 and 198).  Bytes are Nat < 256.
Decoding follows the UTF-8 acceptance ranges of core::str (continuation
ranges restricted for 0xE0/0xED/0xF0/0xF4 to exclude overlong forms,
surrogates and code points above 0x10FFFF); every maximal ill-formed
subpart is replaced by one U+FFFD replacement character. -/

def replacementChar : Char := Char.ofNat 0xFFFD

def utf8DecodeLossy : List Nat → List Char
  | [] => []
  | b :: bs =>
    if b < 0x80 then Char.ofNat b :: utf8DecodeLossy bs
    else if 0xC2 ≤ b ∧ b ≤ 0xDF then
      match bs with
      | [] => [replacementChar]
      | b1 :: bs1 =>
        if 0x80 ≤ b1 ∧ b1 ≤ 0xBF then
          Char.ofNat ((b - 0xC0) * 0x40 + (b1 - 0x80)) :: utf8DecodeLossy bs1
        else replacementChar :: utf8DecodeLossy (b1 :: bs1)
    else if 0xE0 ≤ b ∧ b ≤ 0xEF then
      match bs with
      | [] => [replacementChar]
      | b1 :: bs1 =>
        if (if b = 0xE0 then 0xA0 else 0x80) ≤ b1 ∧
            b1 ≤ (if b = 0xED then 0x9F else 0xBF) then
          match bs1 with
          | [] => [replacementChar]
          | b2 :: bs2 =>
            if 0x80 ≤ b2 ∧ b2 ≤ 0xBF then
              Char.ofNat ((b - 0xE0) * 0x1000 + (b1 - 0x80) * 0x40 + (b2 - 0x80))
                :: utf8DecodeLossy bs2
            else replacementChar :: utf8DecodeLossy (b2 :: bs2)
        else replacementChar :: utf8DecodeLossy (b1 :: bs1)
    else if 0xF0 ≤ b ∧ b ≤ 0xF4 then
      match bs with
      | [] => [replacementChar]
      | b1 :: bs1 =>
        if (if b = 0xF0 then 0x90 else 0x80) ≤ b1 ∧
            b1 ≤ (if b = 0xF4 then 0x8F else 0xBF) then
          match bs1 with
          | [] => [replacementChar]
          | b2 :: bs2 =>
            if 0x80 ≤ b2 ∧ b2 ≤ 0xBF then
              match bs2 with
              | [] => [replacementChar]
              | b3 :: bs3 =>
                if 0x80 ≤ b3 ∧ b3 ≤ 0xBF then
                  Char.ofNat ((b - 0xF0) * 0x40000 + (b1 - 0x80) * 0x1000
                      + (b2 - 0x80) * 0x40 + (b3 - 0x80))
                    :: utf8DecodeLossy bs3
                else replacementChar :: utf8DecodeLossy (b3 :: bs3)
            else replacementChar :: utf8DecodeLossy (b2 :: bs2)
        else replacementChar :: utf8DecodeLossy (b1 :: bs1)
    else replacementChar :: utf8DecodeLossy bs

/-- Standard UTF-8 encoding of one scalar value. -/
def utf8EncodeChar (c : Char) : List Nat :=
  let n := c.toNat
  if n < 0x80 then [n]
  else if n < 0x800 then [0xC0 + n / 0x40, 0x80 + n % 0x40]
  else if n < 0x10000 then
    [0xE0 + n / 0x1000, 0x80 + (n / 0x40) % 0x40, 0x80 + n % 0x40]
  else
    [0xF0 + n / 0x40000, 0x80 + (n / 0x1000) % 0x40,
      0x80 + (n / 0x40) % 0x40, 0x80 + n % 0x40]

def utf8Encode (cs : List Char) : List Nat := (cs.map utf8EncodeChar).flatten

/-! Parsing of the updates count (main.rs lines 145-146). -/

/-- The set of characters Rust's char::is_whitespace recognises (the
Unicode White_Space property), used by str::trim. -/
def isRustWhitespace (c : Char) : Bool :=
  ([0x09, 0x0A, 0x0B, 0x0C, 0x0D, 0x20, 0x85, 0xA0, 0x1680,
    0x2000, 0x2001, 0x2002, 0x2003, 0x2004, 0x2005, 0x2006, 0x2007,
    0x2008, 0x2009, 0x200A, 0x2028, 0x2029, 0x202F, 0x205F, 0x3000] : List Nat).contains
    c.toNat

/-- str::trim: remove leading and trailing whitespace. -/
def rustTrim (s : String) : String :=
  String.mk (((s.data.dropWhile isRustWhitespace).reverse.dropWhile
    isRustWhitespace).reverse)

def digitsVal (ds : List Char) : Nat :=
  ds.foldl (fun a c => a * 10 + (c.toNat - 48)) 0

/-- str::parse::<i32> (i32::from_str): an optional sign followed by one or
more ASCII digits and nothing else, with the value required to fit in i32
(out-of-range input is a parse error). -/
def parseI32 (s : String) : Option Int :=
  let signSplit : Bool × List Char :=
    match s.data with
    | '-' :: rest => (true, rest)
    | '+' :: rest => (false, rest)
    | cs => (false, cs)
  let ds := signSplit.2
  if ds ≠ [] ∧ ds.all Char.isDigit then
    let n : Int := if signSplit.1 then -(digitsVal ds : Int) else (digitsVal ds : Int)
    if -(2 ^ 31) ≤ n ∧ n ≤ 2 ^ 31 - 1 then some n else none
  else none

/-- Two's-complement wrapping to i32, the release-mode behaviour of i32
subtraction in Rust (debug builds panic on overflow instead; either way an
overflowing subtraction does not produce the mathematical difference). -/
def wrap32 (n : Int) : Int := (n + 2 ^ 31) % 2 ^ 32 - 2 ^ 31

/-- Result of one panel draw whose data comes from a subprocess: either a
rendered body, or a panic via .expect (which aborts the whole process; the
message is the expect string at main.rs line 143 resp. 196). -/
inductive PanelResult where
  | rendered (body : String)
  | aborted (msg : String)
  deriving DecidableEq

/-- draw_apt_updates (main.rs lines 138-155).  The input is the captured
stdout of the shell pipeline, or none when spawning it failed. -/
def draw_apt_updates : Option (List Nat) → PanelResult
  | none => PanelResult.aborted ("Failed to execute command")
  | some stdout =>
    let count_str := String.mk (utf8DecodeLossy stdout)
    let count : Int := wrap32 ((parseI32 (rustTrim count_str)).getD 1 - 1)
    PanelResult.rendered ("Available Updates: " ++ toString count)

/-- draw_pueue_status (main.rs lines 190-209).  The input is the captured
stdout of pueue status -g SERVICES, or none when spawning failed. -/
def draw_pueue_status : Option (List Nat) → PanelResult
  | none => PanelResult.aborted ("Failed to execute pueue")
  | some stdout => PanelResult.rendered (String.mk (utf8DecodeLossy stdout))

/-! Program status panel (main.rs lines 157-188), and the line splitting
that tui applies to a Paragraph body string (Text::raw uses str::lines). -/

/-- sysinfo processes_by_exact_name composed with .next().is_some(): the
process table is modelled by the list of process names, and the check is
case-sensitive whole-name equality against some entry. -/
def processes_by_exact_name (table : List String) (name : String) : Bool :=
  table.contains name

/-- draw_program_status (main.rs lines 157-188): one status entry per
watched program, appended in order, each terminated by a newline. -/
def draw_program_status (table : List String) (programs : List String) : String :=
  programs.foldl
    (fun statuses program =>
      let is_running := processes_by_exact_name table program
      let status :=
        if is_running then program ++ ": Running\n"
        else program ++ ": Not Running\n"
      statuses ++ status)
    ""

/-- Split a character list at every newline; always one more piece than
there are newlines. -/
def splitNL : List Char → List (List Char)
  | [] => [[]]
  | c :: cs =>
    if c = '\n' then [] :: splitNL cs
    else
      match splitNL cs with
      | l :: ls => (c :: l) :: ls
      | [] => [[c]]

/-- Strip one trailing carriage return (the CR of a CRLF line ending). -/
def stripTrailingCR (l : List Char) : List Char :=
  if l.getLast? = some '\r' then l.dropLast else l

/-- Rust str::lines: pieces split at newlines, a CR stripped from every
newline-terminated piece, and the final empty piece coming from a trailing
line ending dropped. -/
def rustLines (cs : List Char) : List (List Char) :=
  match (splitNL cs).getLast? with
  | none => []
  | some [] => (splitNL cs).dropLast.map stripTrailingCR
  | some (c :: l) => (splitNL cs).dropLast.map stripTrailingCR ++ [c :: l]

/-- The list of display lines of a Paragraph body string. -/
def textLines (s : String) : List String := (rustLines s.data).map String.mk


theorem splitNL_append (l rest : List Char) (h : '\n' ∉ l) :
    splitNL (l ++ '\n' :: rest) = l :: splitNL rest := by
  induction l with
  | nil => simp [splitNL]
  | cons c l ih =>
    rw [List.mem_cons] at h
    push_neg at h
    obtain ⟨h1, h2⟩ := h
    have hcc : ¬(c = '\n') := fun hc => h1 hc.symm
    rw [List.cons_append]
    simp only [splitNL]
    rw [if_neg hcc, ih h2]

theorem splitNL_flatten (ps : List (List Char)) (h : ∀ p ∈ ps, '\n' ∉ p) :
    splitNL ((ps.map (fun p => p ++ ['\n'])).flatten) = ps ++ [[]] := by
  induction ps with
  | nil => simp [splitNL]
  | cons p ps ih =>
    simp only [List.map_cons, List.flatten_cons]
    rw [List.append_assoc, List.singleton_append,
      splitNL_append p _ (h p (List.mem_cons_self p ps)),
      ih (fun q hq => h q (List.mem_cons_of_mem p hq))]
    rfl

theorem stripTrailingCR_eq (l : List Char) (h : '\r' ∉ l) :
    stripTrailingCR l = l := by
  unfold stripTrailingCR
  rw [if_neg]
  intro hg
  exact h (List.mem_of_mem_getLast? hg)

theorem rustLines_flatten (ps : List (List Char))
    (h : ∀ p ∈ ps, '\n' ∉ p) (h2 : ∀ p ∈ ps, '\r' ∉ p) :
    rustLines ((ps.map (fun p => p ++ ['\n'])).flatten) = ps := by
  have hmap : ∀ (qs : List (List Char)), (∀ p ∈ qs, '\r' ∉ p) →
      qs.map stripTrailingCR = qs := by
    intro qs hq
    induction qs with
    | nil => rfl
    | cons q qs ihq =>
      rw [List.map_cons, stripTrailingCR_eq q (hq q (List.mem_cons_self q qs)),
        ihq (fun p hp => hq p (List.mem_cons_of_mem q hp))]
  unfold rustLines
  rw [splitNL_flatten ps h, List.getLast?_concat]
  show (ps ++ [[]]).dropLast.map stripTrailingCR = ps
  rw [List.dropLast_concat]
  exact hmap ps h2

/-- The fold of the program-status loop, expressed as the flattening of the
per-program newline-terminated entries. -/
theorem foldl_append_data {α : Type} (g : α → String) (l : List α) (acc : String) :
    (l.foldl (fun a x => a ++ g x) acc).data
      = acc.data ++ (l.map (fun x => (g x).data)).flatten := by
  induction l generalizing acc with
  | nil => simp
  | cons x xs ih =>
    simp only [List.foldl_cons, List.map_cons, List.flatten_cons]
    rw [ih, String.data_append, List.append_assoc]


/-- Any successfully parsed i32 lies in the i32 range. -/
theorem parseI32_range (s : String) (n : Int) (h : parseI32 s = some n) :
    -(2 ^ 31) ≤ n ∧ n ≤ 2 ^ 31 - 1 := by
  simp only [parseI32] at h
  split_ifs at h <;>
    first
      | exact Option.noConfusion h
      | (injection h with h2; subst h2; assumption)

/-- C1: every control path out of the main loop is required to run the
terminal-restoration sequence exactly once, but in the code an error during
drawing (or polling, or reading) propagates out of main via the
question-mark operator before the restoration block, so the process
terminates with the terminal unrestored (restoreRuns = 0); only the normal
quit on q restores, exactly once. -/
theorem restore_skipped_on_draw_error :
    mainLoop [⟨false, Except.ok false, Except.ok Event.mouse⟩]
      = MainOutcome.exitErr 0 ∧
    mainLoop [⟨true, Except.ok true, Except.ok (Event.key ⟨KeyCode.char 'q', 0⟩)⟩]
      = MainOutcome.exitOk 1 :=
  ⟨rfl, rfl⟩

/-- C2: the loop breaks (RUNNING to STOPPED) exactly when the iteration is
error-free, an event is ready, and it is a key event whose code is the
character q; and an iteration fails exactly when drawing, polling or
reading errored — hence every error-free iteration with any other event,
or with no event within the budget, continues. -/
theorem loop_breaks_only_on_q (i : IterInput) :
    (iterStep i = IterOutcome.breaks ↔
      i.drawOk = true ∧ i.poll = Except.ok true ∧
        ∃ k, i.read = Except.ok (Event.key k) ∧ k.code = KeyCode.char 'q') ∧
    (iterStep i = IterOutcome.fails ↔
      i.drawOk = false ∨ i.poll = Except.error () ∨
        (i.poll = Except.ok true ∧ i.read = Except.error ())) := by
  obtain ⟨d, p, r⟩ := i
  cases d with
  | false => simp [iterStep]
  | true =>
    cases p with
    | error e => cases e; simp [iterStep]
    | ok b =>
      cases b with
      | false => simp [iterStep]
      | true =>
        cases r with
        | error e => cases e; simp [iterStep]
        | ok ev =>
          cases ev with
          | key k =>
            by_cases hk : k.code = KeyCode.char 'q' <;>
              simp [iterStep, hk]
          | mouse => simp [iterStep]
          | resize w h => simp [iterStep]
          | focusGained => simp [iterStep]
          | focusLost => simp [iterStep]

/-- C2 witness: a concrete iteration that receives the q key breaks the
loop. -/
theorem loop_breaks_only_on_q_witness :
    iterStep ⟨true, Except.ok true, Except.ok (Event.key ⟨KeyCode.char 'q', 0⟩)⟩
      = IterOutcome.breaks :=
  (loop_breaks_only_on_q _).1.mpr ⟨rfl, rfl, ⟨KeyCode.char 'q', 0⟩, rfl, rfl⟩

/-- C3: for a memory snapshot with total T and used U in native units,
U ≤ T and T representable as u64, the rendered Memory Usage body is the
string with both quotients taken by integer floor division by 1024, used
first and total second. -/
theorem memory_body_format (T U : Nat) (hUT : U ≤ T) (hT : T < 2 ^ 64) :
    draw_memory_disk T U =
      "Memory Usage: " ++ toString (U / 1024) ++ "/" ++ toString (T / 1024) ++ " MB" :=
  rfl

/-- C3 witness: with native total 8388608 and used 4194304 the panel body
is the concrete string. -/
theorem memory_body_format_witness :
    draw_memory_disk 8388608 4194304 = "Memory Usage: 4096/8192 MB" :=
  memory_body_format 8388608 4194304 (by decide) (by norm_num)

/-- C4: for every uptime S the rendered components are nonnegative (they
are Nat), hours < 24, minutes < 60, seconds < 60, and the decomposition
reconstructs S exactly; the body uses precisely these four values. -/
theorem uptime_reconstruction (S : Nat) :
    (S % 86400) / 3600 < 24 ∧ (S % 3600) / 60 < 60 ∧ S % 60 < 60 ∧
    (S / 86400) * 86400 + ((S % 86400) / 3600) * 3600
      + ((S % 3600) / 60) * 60 + S % 60 = S ∧
    draw_uptime S =
      "Uptime: " ++ toString (S / 86400) ++ "d "
        ++ toString ((S % 86400) / 3600) ++ "h "
        ++ toString ((S % 3600) / 60) ++ "m "
        ++ toString (S % 60) ++ "s" :=
  ⟨by omega, by omega, by omega, by omega, rfl⟩

/-- C8: the wait budget equals the 1000 ms tick interval minus the elapsed
time, clamped to zero when the elapsed time exceeds the interval; the
checked subtraction never underflows. -/
theorem timeout_clamped (elapsed : Nat) :
    (loop_timeout elapsed : Int) = max ((tick_rate : Int) - (elapsed : Int)) 0 := by
  unfold loop_timeout checked_sub tick_rate
  split <;> simp <;> omega

/-- C5: when the trimmed, lossily decoded stdout of the updates pipeline
parses as an i32 value n with n ≥ 1, the panel renders n - 1; when it does
not parse, the default 1 minus the header adjustment renders 0; and the
panel always renders rather than failing on unparsable input. -/
theorem apt_updates_count :
    (∀ (stdout : List Nat) (n : Int),
        parseI32 (rustTrim (String.mk (utf8DecodeLossy stdout))) = some n → 1 ≤ n →
        draw_apt_updates (some stdout)
          = PanelResult.rendered ("Available Updates: " ++ toString (n - 1))) ∧
    (∀ stdout : List Nat,
        parseI32 (rustTrim (String.mk (utf8DecodeLossy stdout))) = none →
        draw_apt_updates (some stdout)
          = PanelResult.rendered ("Available Updates: 0")) ∧
    (∀ stdout : List Nat, ∃ body,
        draw_apt_updates (some stdout) = PanelResult.rendered body) := by
  refine ⟨?_, ?_, ?_⟩
  · intro stdout n h hn
    have hr := parseI32_range _ _ h
    simp only [draw_apt_updates, h, Option.getD_some]
    have hw : wrap32 (n - 1) = n - 1 := by unfold wrap32; omega
    rw [hw]
  · intro stdout h
    simp only [draw_apt_updates, h, Option.getD_none]
    rfl
  · intro stdout
    exact ⟨_, rfl⟩

/-- C5 witness: a stdout of the two bytes of the text 6 and a newline
parses to 6 and renders 5. -/
theorem apt_updates_count_witness :
    draw_apt_updates (some [54, 10])
      = PanelResult.rendered ("Available Updates: " ++ toString ((6 : Int) - 1)) :=
  apt_updates_count.1 [54, 10] 6 (by decide) (by decide)

/-- C9: a spawn failure of either subprocess makes the draw function panic
with the expect message, aborting the whole process; neither function has a
path that renders a panel body from a spawn failure. -/
theorem spawn_failure_aborts :
    draw_apt_updates none = PanelResult.aborted ("Failed to execute command") ∧
    draw_pueue_status none = PanelResult.aborted ("Failed to execute pueue") ∧
    (∀ b, draw_apt_updates none ≠ PanelResult.rendered b) ∧
    (∀ b, draw_pueue_status none ≠ PanelResult.rendered b) := by
  refine ⟨rfl, rfl, ?_, ?_⟩ <;> intro b h <;> exact PanelResult.noConfusion h

/-- C10 counterexample: the claim says every parseable integer output N
renders N - 1, but the output -2147483648 parses to i32 MIN and the i32
subtraction overflows, rendering 2147483647 (release semantics; debug
builds panic), not the mathematical N - 1 = -2147483649. -/
theorem apt_count_overflow_at_int_min :
    draw_apt_updates (some (utf8Encode ("-2147483648").data))
      = PanelResult.rendered ("Available Updates: 2147483647") ∧
    ("Available Updates: 2147483647" : String)
      ≠ "Available Updates: " ++ toString ((-2147483648 : Int) - 1) := by
  exact ⟨by decide, by decide⟩

/-- C10 amended: for every output parsing to an i32 value n strictly above
i32 MIN the panel renders n - 1 with no clamping to zero, so any parseable
n ≤ 0 above i32 MIN renders a negative count; at i32 MIN itself the
subtraction overflows. -/
theorem apt_count_no_clamp (stdout : List Nat) (n : Int)
    (h : parseI32 (rustTrim (String.mk (utf8DecodeLossy stdout))) = some n)
    (hmin : -(2 ^ 31) < n) :
    draw_apt_updates (some stdout)
      = PanelResult.rendered ("Available Updates: " ++ toString (n - 1)) := by
  have hr := parseI32_range _ _ h
  simp only [draw_apt_updates, h, Option.getD_some]
  have hw : wrap32 (n - 1) = n - 1 := by unfold wrap32; omega
  rw [hw]

/-! Lossy UTF-8 decoding agrees with exact decoding on every well-formed
byte sequence: decoding the encoding of any character list is the
identity, so valid subprocess output passes through verbatim. -/

theorem utf8DecodeLossy_ascii (b : Nat) (rest : List Nat) (h : b < 0x80) :
    utf8DecodeLossy (b :: rest) = Char.ofNat b :: utf8DecodeLossy rest := by
  rw [utf8DecodeLossy.eq_def]
  try dsimp only
  rw [if_pos h]

theorem utf8DecodeLossy_two (b0 b1 : Nat) (rest : List Nat)
    (h0 : 0xC2 ≤ b0) (h0b : b0 ≤ 0xDF) (h1 : 0x80 ≤ b1) (h1b : b1 ≤ 0xBF) :
    utf8DecodeLossy (b0 :: b1 :: rest)
      = Char.ofNat ((b0 - 0xC0) * 0x40 + (b1 - 0x80)) :: utf8DecodeLossy rest := by
  rw [utf8DecodeLossy.eq_def]
  try dsimp only
  rw [if_neg (by omega), if_pos (by omega)]
  try dsimp only
  rw [if_pos (by omega)]

theorem utf8DecodeLossy_three (b0 b1 b2 : Nat) (rest : List Nat)
    (h0 : 0xE0 ≤ b0) (h0b : b0 ≤ 0xEF)
    (h1 : (if b0 = 0xE0 then 0xA0 else 0x80) ≤ b1)
    (h1b : b1 ≤ (if b0 = 0xED then 0x9F else 0xBF))
    (h2 : 0x80 ≤ b2) (h2b : b2 ≤ 0xBF) :
    utf8DecodeLossy (b0 :: b1 :: b2 :: rest)
      = Char.ofNat ((b0 - 0xE0) * 0x1000 + (b1 - 0x80) * 0x40 + (b2 - 0x80))
          :: utf8DecodeLossy rest := by
  rw [utf8DecodeLossy.eq_def]
  try dsimp only
  rw [if_neg (by omega), if_neg (by omega), if_pos (by omega)]
  try dsimp only
  rw [if_pos ⟨h1, h1b⟩]
  try dsimp only
  rw [if_pos (by omega)]

theorem utf8DecodeLossy_four (b0 b1 b2 b3 : Nat) (rest : List Nat)
    (h0 : 0xF0 ≤ b0) (h0b : b0 ≤ 0xF4)
    (h1 : (if b0 = 0xF0 then 0x90 else 0x80) ≤ b1)
    (h1b : b1 ≤ (if b0 = 0xF4 then 0x8F else 0xBF))
    (h2 : 0x80 ≤ b2) (h2b : b2 ≤ 0xBF) (h3 : 0x80 ≤ b3) (h3b : b3 ≤ 0xBF) :
    utf8DecodeLossy (b0 :: b1 :: b2 :: b3 :: rest)
      = Char.ofNat ((b0 - 0xF0) * 0x40000 + (b1 - 0x80) * 0x1000
          + (b2 - 0x80) * 0x40 + (b3 - 0x80)) :: utf8DecodeLossy rest := by
  rw [utf8DecodeLossy.eq_def]
  try dsimp only
  rw [if_neg (by omega), if_neg (by omega), if_neg (by omega), if_pos (by omega)]
  try dsimp only
  rw [if_pos ⟨h1, h1b⟩]
  try dsimp only
  rw [if_pos (by omega)]
  try dsimp only
  rw [if_pos (by omega)]

set_option maxRecDepth 8000 in
theorem utf8DecodeLossy_encodeChar (c : Char) (rest : List Nat) :
    utf8DecodeLossy (utf8EncodeChar c ++ rest) = c :: utf8DecodeLossy rest := by
  have hvalid : c.toNat < 0xD800 ∨ (0xE000 ≤ c.toNat ∧ c.toNat < 0x110000) := c.valid
  by_cases hA : c.toNat < 0x80
  · have he : utf8EncodeChar c = [c.toNat] := by
      simp only [utf8EncodeChar]
      rw [if_pos hA]
    rw [he, List.singleton_append, utf8DecodeLossy_ascii _ _ hA, Char.ofNat_toNat]
  · by_cases hB : c.toNat < 0x800
    · have he : utf8EncodeChar c = [0xC0 + c.toNat / 0x40, 0x80 + c.toNat % 0x40] := by
        simp only [utf8EncodeChar]
        rw [if_neg hA, if_pos hB]
      rw [he, List.cons_append, List.singleton_append,
        utf8DecodeLossy_two _ _ rest (by omega) (by omega) (by omega) (by omega)]
      congr 1
      have harith : (0xC0 + c.toNat / 0x40 - 0xC0) * 0x40
          + (0x80 + c.toNat % 0x40 - 0x80) = c.toNat := by omega
      rw [harith, Char.ofNat_toNat]
    · by_cases hC : c.toNat < 0x10000
      · have he : utf8EncodeChar c
            = [0xE0 + c.toNat / 0x1000, 0x80 + (c.toNat / 0x40) % 0x40,
               0x80 + c.toNat % 0x40] := by
          simp only [utf8EncodeChar]
          rw [if_neg hA, if_neg hB, if_pos hC]
        have hb1 : (if 0xE0 + c.toNat / 0x1000 = 0xE0 then 0xA0 else 0x80)
            ≤ 0x80 + (c.toNat / 0x40) % 0x40 := by
          split <;> omega
        have hb1b : 0x80 + (c.toNat / 0x40) % 0x40
            ≤ (if 0xE0 + c.toNat / 0x1000 = 0xED then 0x9F else 0xBF) := by
          split <;> omega
        rw [he, List.cons_append, List.cons_append, List.singleton_append,
          utf8DecodeLossy_three _ _ _ rest (by omega) (by omega) hb1 hb1b
            (by omega) (by omega)]
        congr 1
        have harith : (0xE0 + c.toNat / 0x1000 - 0xE0) * 0x1000
            + (0x80 + (c.toNat / 0x40) % 0x40 - 0x80) * 0x40
            + (0x80 + c.toNat % 0x40 - 0x80) = c.toNat := by omega
        rw [harith, Char.ofNat_toNat]
      · have he : utf8EncodeChar c
            = [0xF0 + c.toNat / 0x40000, 0x80 + (c.toNat / 0x1000) % 0x40,
               0x80 + (c.toNat / 0x40) % 0x40, 0x80 + c.toNat % 0x40] := by
          simp only [utf8EncodeChar]
          rw [if_neg hA, if_neg hB, if_neg hC]
        have hb1 : (if 0xF0 + c.toNat / 0x40000 = 0xF0 then 0x90 else 0x80)
            ≤ 0x80 + (c.toNat / 0x1000) % 0x40 := by
          split <;> omega
        have hb1b : 0x80 + (c.toNat / 0x1000) % 0x40
            ≤ (if 0xF0 + c.toNat / 0x40000 = 0xF4 then 0x8F else 0xBF) := by
          split <;> omega
        rw [he, List.cons_append, List.cons_append, List.cons_append,
          List.singleton_append,
          utf8DecodeLossy_four _ _ _ _ rest (by omega) (by omega) hb1 hb1b
            (by omega) (by omega) (by omega) (by omega)]
        congr 1
        have harith : (0xF0 + c.toNat / 0x40000 - 0xF0) * 0x40000
            + (0x80 + (c.toNat / 0x1000) % 0x40 - 0x80) * 0x1000
            + (0x80 + (c.toNat / 0x40) % 0x40 - 0x80) * 0x40
            + (0x80 + c.toNat % 0x40 - 0x80) = c.toNat := by omega
        rw [harith, Char.ofNat_toNat]

theorem utf8_round_trip (cs : List Char) :
    utf8DecodeLossy (utf8Encode cs) = cs := by
  induction cs with
  | nil => rfl
  | cons c cs ih =>
    have hsplit : utf8Encode (c :: cs) = utf8EncodeChar c ++ utf8Encode cs := by
      simp [utf8Encode]
    rw [hsplit, utf8DecodeLossy_encodeChar, ih]

/-- Mapping a list of carriage-return-free strings through the
newline-join and the line splitting gives back the list. -/
theorem textLines_of_line_list (l : List String)
    (h : ∀ p ∈ l, ('\n' ∉ p.data ∧ '\r' ∉ p.data)) :
    (rustLines ((l.map (fun q => q.data ++ ['\n'])).flatten)).map String.mk = l := by
  have hmm : l.map (fun q => q.data ++ ['\n'])
      = (l.map String.data).map (fun q => q ++ ['\n']) := by
    rw [List.map_map]
    rfl
  rw [hmm, rustLines_flatten]
  · rw [List.map_map]
    have hid : (String.mk ∘ String.data) = id := funext fun s => rfl
    rw [hid, List.map_id]
  · intro p hp
    rw [List.mem_map] at hp
    obtain ⟨q, hq, rfl⟩ := hp
    exact (h q hq).1
  · intro p hp
    rw [List.mem_map] at hp
    obtain ⟨q, hq, rfl⟩ := hp
    exact (h q hq).2

/-- C6: the Program Status panel body consists of exactly one display line
per watched name, in the order of the watched list, each line being exactly
name: Running when some process in the table has that exact name and
name: Not Running otherwise.  Watched names are required to contain no line
break, since they are rendered one per line. -/
theorem program_status_lines (table programs : List String)
    (h : ∀ p ∈ programs, ('\n' ∉ p.data ∧ '\r' ∉ p.data)) :
    textLines (draw_program_status table programs)
      = programs.map (fun p =>
          if processes_by_exact_name table p then p ++ ": Running"
          else p ++ ": Not Running") := by
  have h0 : (draw_program_status table programs).data
      = ("" : String).data ++ (programs.map (fun x =>
          ((if processes_by_exact_name table x then x ++ ": Running\n"
            else x ++ ": Not Running\n") : String).data)).flatten :=
    foldl_append_data _ programs ""
  have hentry : ∀ p : String,
      ((if processes_by_exact_name table p then p ++ ": Running\n"
        else p ++ ": Not Running\n") : String).data
      = ((if processes_by_exact_name table p then p ++ ": Running"
          else p ++ ": Not Running") : String).data ++ ['\n'] := by
    intro p
    by_cases hr : processes_by_exact_name table p = true
    · rw [if_pos hr, if_pos hr, String.data_append, String.data_append,
        List.append_assoc]
      rfl
    · rw [if_neg hr, if_neg hr, String.data_append, String.data_append,
        List.append_assoc]
      rfl
  have h1 : (draw_program_status table programs).data
      = ((programs.map (fun p =>
            if processes_by_exact_name table p then p ++ ": Running"
            else p ++ ": Not Running")).map (fun q => q.data ++ ['\n'])).flatten := by
    rw [h0, List.map_congr_left (fun p _ => hentry p), List.map_map]
    rfl
  unfold textLines
  rw [h1]
  refine textLines_of_line_list _ ?_
  intro p hp
  rw [List.mem_map] at hp
  obtain ⟨q, hq, rfl⟩ := hp
  by_cases hr : processes_by_exact_name table q = true
  · rw [if_pos hr, String.data_append]
    constructor
    · intro hmem
      rcases List.mem_append.mp hmem with hm | hm
      · exact (h q hq).1 hm
      · exact absurd hm (by decide)
    · intro hmem
      rcases List.mem_append.mp hmem with hm | hm
      · exact (h q hq).2 hm
      · exact absurd hm (by decide)
  · rw [if_neg hr, String.data_append]
    constructor
    · intro hmem
      rcases List.mem_append.mp hmem with hm | hm
      · exact (h q hq).1 hm
      · exact absurd hm (by decide)
    · intro hmem
      rcases List.mem_append.mp hmem with hm | hm
      · exact (h q hq).2 hm
      · exact absurd hm (by decide)

/-- C6 witness: with nginx in the process table and mysql absent, the panel
shows the two lines of the claim. -/
theorem program_status_lines_witness :
    textLines (draw_program_status ["systemd", "nginx"] ["nginx", "mysql"])
      = ["nginx: Running", "mysql: Not Running"] :=
  (program_status_lines ["systemd", "nginx"] ["nginx", "mysql"]
    (by decide)).trans (by decide)

/-- C10 witness: the output 0 renders the negative count -1. -/
theorem apt_count_no_clamp_witness :
    draw_apt_updates (some [48])
      = PanelResult.rendered ("Available Updates: " ++ toString ((0 : Int) - 1)) :=
  apt_count_no_clamp [48] 0 (by decide) (by decide)

/-- C7 counterexample: the claim says the panel body equals the subprocess
output verbatim with no transformation of the bytes, but the code passes
stdout through String::from_utf8_lossy, so the ill-formed one-byte output
255 is replaced by U+FFFD and the body's byte sequence is not the output. -/
theorem pueue_not_byte_verbatim :
    draw_pueue_status (some [255])
      = PanelResult.rendered (String.mk [replacementChar]) ∧
    utf8Encode (String.mk [replacementChar]).data ≠ [255] :=
  ⟨rfl, by decide⟩

/-- C7 amended: whenever the subprocess output is well-formed UTF-8 (the
encoding of some text s), the panel body is exactly s — a verbatim
pass-through with no parsing; ill-formed bytes are replaced by U+FFFD. -/
theorem pueue_verbatim_on_valid_utf8 (s : String) :
    draw_pueue_status (some (utf8Encode s.data)) = PanelResult.rendered s := by
  show PanelResult.rendered (String.mk (utf8DecodeLossy (utf8Encode s.data)))
    = PanelResult.rendered s
  rw [utf8_round_trip]

end Rashboard
